import Mathlib

/-!
Verification development for the relmvim multi-grid state reducer.

The definitions below are a shallow embedding of the Rust sources:
  * `src/vimview/textbuf.rs` — the cell/line buffer (`_TextBuf` behind its
    `RwLock`, which in the single-threaded reducer model adds nothing),
  * `src/app.rs` — the redraw-event handlers of `AppUpdate::update`.

Machine integers (`usize`) are embedded as `Nat`; the buffers involved are
far below any overflow boundary and the source performs no wrapping
arithmetic.  `f64` coordinates are embedded as `Rat`: every coordinate
computation in the embedded handlers is affine arithmetic and `max` on
values that are exactly representable, so no rounding is lost.  Fallible
operations (Rust code that can `panic!` / `unimplemented!` / index out of
bounds) return `Option` (`none` = panic) or an explicit outcome type.
Byte lengths of cell texts use `String.utf8ByteSize`, matching Rust's
`str::len`.  The derived pango attribute list of a cell (`attrs`) and the
opaque layout cache contents are presentation data recomputed from shared
highlight state; the attribute list is omitted and the per-line cache is
embedded as a `Bool` (present / absent), which is all the claims observe.
-/

namespace Relmvim

/-- Embeds `TextCell` from `src/vimview/textbuf.rs` (the derived `attrs`
list is omitted, see the file comment). -/
structure TextCell where
  text : String
  hldef : Option Nat
  double_width : Bool
  start_index : Nat
  end_index : Nat
  deriving Repr, DecidableEq

/-- Embeds `impl Default for TextCell`: a single blank with zero offsets. -/
def TextCell.mkDefault : TextCell :=
  { text := " ", hldef := none, double_width := false, start_index := 0, end_index := 0 }

/-- Embeds `TextLine`: the boxed cell slice plus the shaping cache, the
latter abstracted to presence (`true`) or absence (`false`). -/
structure TextLine where
  boxed : List TextCell
  cache : Bool
  deriving Repr, DecidableEq

/-- The enumerate-and-set loop of `TextLine::new` and of the column padding
in `resize`: `n` blank cells whose offsets run `s..s+1, s+1..s+2, …`. -/
def blankCells : Nat → Nat → List TextCell
  | _, 0 => []
  | s, n + 1 =>
    { TextCell.mkDefault with start_index := s, end_index := s + 1 } :: blankCells (s + 1) n

/-- Embeds `TextLine::new(cols)`: `cols` default cells with offsets
`i..i+1`, no cache. -/
def TextLine.new (cols : Nat) : TextLine :=
  { boxed := blankCells 0 cols, cache := false }

/-- Embeds `_TextBuf` (the inner state of the `TextBuf` glib object). -/
structure TextBuf where
  rows : Nat
  cols : Nat
  cells : List TextLine
  deriving Repr, DecidableEq

/-- Embeds `TextBufExt::make(rows, cols)`. -/
def TextBuf.make (rows cols : Nat) : List TextLine :=
  List.replicate rows (TextLine.new cols)

/-- Embeds `_TextBuf::new(rows, cols)`. -/
def mkTextBuf (rows cols : Nat) : TextBuf :=
  { rows := rows, cols := cols, cells := TextBuf.make rows cols }

/-- Embeds `GridLineCell` as destructured by `_TextBuf::set_cells`
(`text`, `hldef`, `repeat` — here `rep`, `repeat` being a Lean keyword —
and `double_width`). -/
structure GridLineCell where
  text : String
  hldef : Option Nat
  rep : Option Nat
  double_width : Bool
  deriving Repr, DecidableEq

/-- The inner `for _ in 0..repeat.unwrap_or(1)` loop of `set_cells`:
`n` copies of the run's cell, offsets advancing by the text's byte size. -/
def expandRepeat (g : GridLineCell) : Nat → Nat → List TextCell
  | _, 0 => []
  | s, n + 1 =>
    { text := g.text, hldef := g.hldef, double_width := g.double_width,
      start_index := s, end_index := s + g.text.utf8ByteSize }
      :: expandRepeat g (s + g.text.utf8ByteSize) n

/-- The outer expansion loop of `set_cells` over the run list. -/
def expandCells : List GridLineCell → Nat → List TextCell
  | [], _ => []
  | g :: rest, s =>
    let k := (g.rep).getD 1
    expandRepeat g s k ++ expandCells rest (s + k * g.text.utf8ByteSize)

/-- The final `line.iter_mut().fold(0, …)` of `set_cells`: rewrite every
cell's offsets so they run contiguously from `s`, each of width
`text.len()`. -/
def renumber : List TextCell → Nat → List TextCell
  | [], _ => []
  | c :: rest, s =>
    { c with start_index := s, end_index := s + c.text.utf8ByteSize }
      :: renumber rest (s + c.text.utf8ByteSize)

/-- Embeds `_TextBuf::set_cells(row, col, cells)`.  An out-of-bounds `row`
logs and returns with the buffer unchanged; a replacement range that does
not fit the line makes `swap_with_slice` panic (`none`), as does a `cells`
slice shorter than the `rows` field claims. -/
def TextBuf.set_cells (b : TextBuf) (row col : Nat) (cells : List GridLineCell) :
    Option TextBuf :=
  if b.rows ≤ row then some b
  else
    match b.cells[row]? with
    | none => none
    | some line =>
      let s := ((line.boxed[col]?).map TextCell.start_index).getD 0
      let expands := expandCells cells s
      if col + expands.length ≤ line.boxed.length then
        some { b with
          cells := b.cells.set row
            { boxed := renumber
                (line.boxed.take col ++ expands ++ line.boxed.drop (col + expands.length)) 0,
              cache := false } }
      else none

/-- Embeds `_TextBuf::up(rows)`: drop the first `n` rows, append `n` blank
rows.  Panics (`none`) if the slice arithmetic underflows or the cell
vector disagrees with the `rows` field. -/
def TextBuf.up (b : TextBuf) (n : Nat) : Option TextBuf :=
  if n ≤ b.rows ∧ b.cells.length = b.rows then
    some { b with cells := b.cells.drop n ++ List.replicate n (TextLine.new b.cols) }
  else none

/-- Embeds `_TextBuf::down(rows)`: drop the last `n` rows, prepend `n`
blank rows. -/
def TextBuf.down (b : TextBuf) (n : Nat) : Option TextBuf :=
  if n ≤ b.rows ∧ b.cells.length = b.rows then
    some { b with cells := List.replicate n (TextLine.new b.cols) ++ b.cells.take (b.rows - n) }
  else none

/-- The `tl.last().map(|last| last.start_index).unwrap_or(0)` seed of the
column padding in `resize`. -/
def padStart (l : List TextCell) : Nat :=
  ((l.getLast?).map TextCell.start_index).getD 0

/-- The per-line body of `resize`: `tl.resize(cols, default)` followed by
the offset-fixing loop over the appended cells (a no-op when the line is
truncated).  The rebuilt line carries a fresh (absent) cache, as
`TextLine::from` uses the default cache. -/
def resizeLine (cols : Nat) (l : List TextCell) : TextLine :=
  { boxed := l.take cols ++ blankCells (padStart l) (cols - l.length), cache := false }

/-- Embeds `<_TextBuf as TextBufExt>::resize(rows, cols)`: identical
dimensions return immediately; otherwise the first `min` rows are kept and
every line of the new vector is rebuilt by `resizeLine`. -/
def TextBuf.resize (b : TextBuf) (rows cols : Nat) : Option TextBuf :=
  if b.rows = rows ∧ b.cols = cols then some b
  else
    let nrows := min rows b.rows
    if nrows ≤ b.cells.length then
      some { rows := rows, cols := cols,
             cells := (b.cells.take nrows).map (fun l => resizeLine cols l.boxed)
               ++ List.replicate (rows - nrows) (resizeLine cols []) }
    else none

/-- Embeds `imp::TextBuf::cell(row, col)`:
`self.lines().get(row).and_then(|line| line.get(col)).cloned()`. -/
def TextBuf.cell (b : TextBuf) (row col : Nat) : Option TextCell :=
  (b.cells[row]?).bind fun line => line.boxed[col]?

/-- A `row, col_start, runs` triple: one `set_cells` call on a buffer. -/
structure SetCellsOp where
  row : Nat
  col : Nat
  cells : List GridLineCell
  deriving Repr, DecidableEq

/-- A sequence of `set_cells` calls applied in order; `none` as soon as one
of them panics. -/
def applyOps (b : TextBuf) : List SetCellsOp → Option TextBuf
  | [] => some b
  | op :: rest => (b.set_cells op.row op.col op.cells).bind fun b2 => applyOps b2 rest

/-- Embeds `WindowAnchor` as matched by the `WindowFloatPosition` arm of
`AppUpdate::update` in `src/app.rs`. -/
inductive WindowAnchor
  | NorthWest
  | NorthEast
  | SouthWest
  | SouthEast
  deriving Repr, DecidableEq

/-- Modelled from the spec: the grid geometry touched by the
`WindowFloatPosition` handler.  The `VimGrid` type itself lives in the
`vimview` module, absent from `src/`; per spec §3 a grid has a logical
origin `(col, row)` in cell units, a size `(cols, rows)`, and floating /
focusable flags, which is exactly what the handler in `src/app.rs` reads
(`coord()`, `width()`, `height()`) and writes (`set_coord`, `set_is_float`,
`set_focusable`). -/
structure VimGrid where
  coordCol : Rat
  coordRow : Rat
  width : Nat
  height : Nat
  is_float : Bool
  focusable : Bool
  deriving Repr, DecidableEq

/-- Embeds `f64::max` on exactly-represented coordinates; definitionally
equal to `max` on `Rat` (see `fmax_eq_max`) but written with an explicit
decidable comparison so concrete placements evaluate by `decide`. -/
def fmax (a b : Rat) : Rat :=
  if a ≤ b then b else a

/-- Embeds the `RedrawEvent::WindowFloatPosition` arm of
`AppUpdate::update`: clamp the anchor offsets to be non-negative, subtract
the floating grid's width/height for right/bottom anchors, clamp again and
add to the anchor grid's origin `(acol, arow)`. -/
def windowFloatPosition (acol arow : Rat) (g : VimGrid) (anchor : WindowAnchor)
    (anchor_column anchor_row : Rat) (focusable : Bool) : VimGrid :=
  let ac := fmax anchor_column 0
  let ar := fmax anchor_row 0
  let cr : Rat × Rat :=
    match anchor with
    | .NorthWest => (ac, ar)
    | .NorthEast => (ac - (g.width : Rat), ar)
    | .SouthWest => (ac, ar - (g.height : Rat))
    | .SouthEast => (ac - (g.width : Rat), ar - (g.height : Rat))
  { g with
    coordCol := acol + fmax cr.1 0
    coordRow := arow + fmax cr.2 0
    is_float := true
    focusable := focusable }

/-- Outcome of one reducer step: the mutated state, or a panic with the
panic message (`unimplemented!` formats as `not implemented: …`; the text
kept here is the distinguishing part). -/
inductive ScrollOutcome
  | ok (b : TextBuf)
  | panic (msg : String)
  deriving Repr, DecidableEq

/-- Embeds the scroll dispatch of the `RedrawEvent::Scroll` arm of
`AppUpdate::update` on the target grid's buffer: positive `rows` scroll
up, negative scroll down, and otherwise the handler hits `unimplemented!`
(`scroll left.` / `scroll right.` for a non-zero column delta,
`could not be there.` when both deltas are zero).  The cursor-cell
snapshot refresh that follows a successful vertical scroll touches only
cursor state and is outside this claim's scope. -/
def scrollReduce (b : TextBuf) (rows columns : Int) : ScrollOutcome :=
  if 0 < rows then
    match b.up rows.natAbs with
    | some b2 => .ok b2
    | none => .panic "slice index out of range"
  else if rows < 0 then
    match b.down rows.natAbs with
    | some b2 => .ok b2
    | none => .panic "slice index out of range"
  else if 0 < columns then .panic "scroll left."
  else if columns < 0 then .panic "scroll right."
  else .panic "could not be there."

/-- Modelled from the spec: a cursor mode record (§4.4 — "each mode:
shape, highlight id, blink parameters"); the `cursor` module holding
`CursorMode` is absent from `src/`, and the `ModeChange` handler only
moves these records around. -/
structure CursorMode where
  shape : Nat
  hldef : Option Nat
  blinkon : Nat
  blinkoff : Nat
  deriving Repr, DecidableEq

/-- Modelled from the spec: the editor-mode tag carried by `ModeChange`
(the `bridge::events` module defining `EditorMode` is absent from
`src/`); `src/app.rs` initialises with `Normal` and tests only for
`Visual`. -/
inductive EditorMode
  | Normal
  | Insert
  | Visual
  | Replace
  | CmdLine
  | Unknown (s : String)
  deriving Repr, DecidableEq

/-- The mode-related slice of `AppModel` read and written by the
`ModeChange` arm, plus the cursor component's currently shown mode. -/
structure ModeState where
  mode : EditorMode
  cursor_mode : Nat
  cursor_modes : List CursorMode
  shownMode : Option CursorMode
  deriving Repr, DecidableEq

/-- Embeds the `RedrawEvent::ModeChange` arm of `AppUpdate::update`:
record the new mode and index, look the index up in the registered cursor
modes (`unwrap` — out of range panics, `none`), push that mode to the
cursor, and send `AppMessage::ShowPointer` exactly when the new mode is
`Visual`.  The returned `Bool` is whether `ShowPointer` was sent. -/
def modeChange (st : ModeState) (mode : EditorMode) (mode_index : Nat) :
    Option (ModeState × Bool) :=
  match st.cursor_modes[mode_index]? with
  | none => none
  | some cm =>
    some ({ st with mode := mode, cursor_mode := mode_index, shownMode := some cm },
      decide (mode = EditorMode.Visual))

/-- The cursor-tracking slice of `AppModel` read and written by the
`CursorGoto` arm: active grid, grid-local coordinate (`cursor_coord`),
the cursor component's cell snapshot and surface coordinate, and the
`cursor_coord_changed` flag.  Coordinates are `f64` in the source,
embedded as `Rat`. -/
structure CursorState where
  grid : Nat
  coordCol : Rat
  coordRow : Rat
  cell : Option TextCell
  surfaceCol : Rat
  surfaceRow : Rat
  coordChanged : Bool
  deriving Repr, DecidableEq

/-- Embeds the `RedrawEvent::CursorGoto` arm of `AppUpdate::update` for a
target grid that exists, with origin `(leftopCol, leftopRow)` and buffer
`buf`.  If the coordinate has a backing cell, the grid, local coordinate,
cell snapshot and surface coordinate are all updated; otherwise only a
warning is logged.  In both cases the changed flag is set and the active
grid recorded. -/
def cursorGoto (st : CursorState) (grid : Nat) (leftopCol leftopRow : Rat)
    (buf : TextBuf) (row column : Nat) : CursorState :=
  let st2 :=
    match buf.cell row column with
    | some c =>
      { st with
        grid := grid
        coordCol := (column : Rat)
        coordRow := (row : Rat)
        cell := some c
        surfaceCol := leftopCol + (column : Rat)
        surfaceRow := leftopRow + (row : Rat) }
    | none => st
  { st2 with coordChanged := true, grid := grid }

/-- Modelled from the spec: a message entry (§3 — kind tag plus styled
content, a sequence of `(text, highlight id)` runs); the `VimMessage` type
lives in the `vimview` module, absent from `src/`.  The handler in
`src/app.rs` only constructs and queues these. -/
structure VimMessage where
  kind : String
  content : List (String × Nat)
  deriving Repr, DecidableEq

/-- Embeds the `RedrawEvent::MessageShow` arm of `AppUpdate::update`:
when `replace_last` is set and the queue is non-empty, pop the most
recent entry (`FactoryVec::pop` removes the back element), then push the
new message at the back. -/
def messageShow (msgs : List VimMessage) (kind : String)
    (content : List (String × Nat)) (replace_last : Bool) : List VimMessage :=
  let q := if replace_last && !msgs.isEmpty then msgs.dropLast else msgs
  q ++ [{ kind := kind, content := content }]

/-- The offsets produced by the trailing `fold` of `set_cells` run
contiguously from the seed, each cell spanning exactly its text's bytes. -/
def contiguousFrom : Nat → List TextCell → Prop
  | _, [] => True
  | s, c :: rest =>
    c.start_index = s ∧ c.end_index = s + c.text.utf8ByteSize ∧ contiguousFrom c.end_index rest

/-- The line invariant maintained by the buffer: every line's offsets run
contiguously from 0. -/
def linesContiguous (b : TextBuf) : Prop :=
  ∀ l ∈ b.cells, contiguousFrom 0 l.boxed

/-- The text invariant: no cell holds an empty text (`TextLine::new` fills
with one-space blanks). -/
def linesNonempty (b : TextBuf) : Prop :=
  ∀ l ∈ b.cells, ∀ c ∈ l.boxed, c.text ≠ ""

/-! ## Helper lemmas -/

theorem fmax_eq_max (a b : Rat) : fmax a b = max a b :=
  (max_def a b).symm

theorem renumber_contiguous (l : List TextCell) (s : Nat) :
    contiguousFrom s (renumber l s) := by
  induction l generalizing s with
  | nil => trivial
  | cons c rest ih => exact ⟨rfl, rfl, ih _⟩

theorem blankCells_contiguous (n s : Nat) : contiguousFrom s (blankCells s n) := by
  induction n generalizing s with
  | zero => trivial
  | succ n ih => exact ⟨rfl, rfl, ih _⟩

theorem utf8ByteSize_pos (s : String) (h : s ≠ "") : 0 < s.utf8ByteSize := by
  cases s with
  | mk data =>
    cases data with
    | nil => exact absurd rfl h
    | cons c cs =>
      show 0 < String.utf8ByteSize.go cs + c.utf8Size
      exact Nat.lt_of_lt_of_le c.utf8Size_pos (Nat.le_add_left _ _)

theorem contiguousFrom_head {s : Nat} {l : List TextCell} {c : TextCell}
    (hl : contiguousFrom s l) (hc : l[0]? = some c) : c.start_index = s := by
  cases l with
  | nil => simp at hc
  | cons a rest =>
    simp only [List.getElem?_cons_zero, Option.some.injEq] at hc
    exact hc ▸ hl.1

theorem contiguousFrom_adjacent {l : List TextCell} :
    ∀ {s i : Nat} {c₁ c₂ : TextCell}, contiguousFrom s l →
      l[i]? = some c₁ → l[i + 1]? = some c₂ → c₁.end_index = c₂.start_index := by
  induction l with
  | nil => intro s i c₁ c₂ _ h; simp at h
  | cons a rest ih =>
    intro s i c₁ c₂ hl h1 h2
    cases i with
    | zero =>
      simp only [List.getElem?_cons_zero, Option.some.injEq] at h1
      simp only [List.getElem?_cons_succ] at h2
      subst h1
      exact (contiguousFrom_head hl.2.2 h2).symm
    | succ i =>
      simp only [List.getElem?_cons_succ] at h1 h2
      exact ih hl.2.2 h1 h2

theorem contiguousFrom_strict {s : Nat} {l : List TextCell}
    (hl : contiguousFrom s l) (ht : ∀ c ∈ l, c.text ≠ "") :
    ∀ c ∈ l, c.start_index < c.end_index := by
  induction l generalizing s with
  | nil => intro c hc; simp at hc
  | cons a rest ih =>
    intro c hc
    rcases List.mem_cons.mp hc with rfl | hc
    · rw [hl.1, hl.2.1]
      exact Nat.lt_add_of_pos_right (utf8ByteSize_pos _ (ht c (List.mem_cons_self _ _)))
    · exact ih hl.2.2 (fun d hd => ht d (List.mem_cons_of_mem _ hd)) c hc

theorem renumber_text {l : List TextCell} {s : Nat} :
    ∀ c ∈ renumber l s, ∃ c₀ ∈ l, c.text = c₀.text := by
  induction l generalizing s with
  | nil => intro c hc; simp [renumber] at hc
  | cons a rest ih =>
    intro c hc
    rcases List.mem_cons.mp hc with rfl | hc
    · exact ⟨a, List.mem_cons_self _ _, rfl⟩
    · obtain ⟨c₀, hc₀, he⟩ := ih c hc
      exact ⟨c₀, List.mem_cons_of_mem _ hc₀, he⟩

theorem expandRepeat_text {g : GridLineCell} :
    ∀ {n s : Nat}, ∀ c ∈ expandRepeat g s n, c.text = g.text := by
  intro n
  induction n with
  | zero => intro s c hc; simp [expandRepeat] at hc
  | succ n ih =>
    intro s c hc
    rcases List.mem_cons.mp hc with rfl | hc
    · rfl
    · exact ih c hc

theorem expandCells_text {gs : List GridLineCell} :
    ∀ {s : Nat}, ∀ c ∈ expandCells gs s, ∃ g ∈ gs, c.text = g.text := by
  induction gs with
  | nil => intro s c hc; simp [expandCells] at hc
  | cons g rest ih =>
    intro s c hc
    rcases List.mem_append.mp hc with hc | hc
    · exact ⟨g, List.mem_cons_self _ _, expandRepeat_text c hc⟩
    · obtain ⟨g₀, hg₀, he⟩ := ih c hc
      exact ⟨g₀, List.mem_cons_of_mem _ hg₀, he⟩

theorem mkTextBuf_contiguous (rows cols : Nat) : linesContiguous (mkTextBuf rows cols) := by
  intro l hl
  rw [List.eq_of_mem_replicate hl]
  exact blankCells_contiguous cols 0

theorem blankCells_text {n s : Nat} : ∀ c ∈ blankCells s n, c.text = " " := by
  induction n generalizing s with
  | zero => intro c hc; simp [blankCells] at hc
  | succ n ih =>
    intro c hc
    rcases List.mem_cons.mp hc with rfl | hc
    · rfl
    · exact ih c hc

theorem mkTextBuf_nonempty (rows cols : Nat) : linesNonempty (mkTextBuf rows cols) := by
  intro l hl c hc
  rw [List.eq_of_mem_replicate hl] at hc
  rw [blankCells_text c hc]
  decide

theorem set_cells_contiguous {b t : TextBuf} {row col : Nat} {cs : List GridLineCell}
    (h : b.set_cells row col cs = some t) (hb : linesContiguous b) :
    linesContiguous t := by
  unfold TextBuf.set_cells at h
  split at h
  · exact Option.some.inj h ▸ hb
  · split at h
    · exact absurd h (by simp)
    · dsimp only at h
      split at h
      · cases h
        intro l hl
        rcases List.mem_or_eq_of_mem_set hl with hl | rfl
        · exact hb l hl
        · exact renumber_contiguous _ 0
      · exact absurd h (by simp)

theorem set_cells_nonempty {b t : TextBuf} {row col : Nat} {cs : List GridLineCell}
    (h : b.set_cells row col cs = some t) (hcs : ∀ g ∈ cs, g.text ≠ "")
    (hb : linesNonempty b) : linesNonempty t := by
  unfold TextBuf.set_cells at h
  split at h
  · exact Option.some.inj h ▸ hb
  · rename_i hrow
    split at h
    · exact absurd h (by simp)
    · rename_i line hline
      dsimp only at h
      split at h
      · cases h
        intro l hl c hc
        rcases List.mem_or_eq_of_mem_set hl with hl | rfl
        · exact hb l hl c hc
        · obtain ⟨c₀, hc₀, he⟩ := renumber_text c hc
          rw [he]
          rcases List.mem_append.mp (List.append_assoc _ _ _ ▸ hc₀) with h₀ | h₀
          · exact hb line (List.getElem?_mem hline) c₀ (List.mem_of_mem_take h₀)
          · rcases List.mem_append.mp h₀ with h₀ | h₀
            · obtain ⟨g, hg, hge⟩ := expandCells_text c₀ h₀
              exact hge ▸ hcs g hg
            · exact hb line (List.getElem?_mem hline) c₀ (List.mem_of_mem_drop h₀)
      · exact absurd h (by simp)

theorem applyOps_contiguous {ops : List SetCellsOp} :
    ∀ {b t : TextBuf}, applyOps b ops = some t → linesContiguous b → linesContiguous t := by
  induction ops with
  | nil => intro b t h hb; cases h; exact hb
  | cons op rest ih =>
    intro b t h hb
    rcases Option.bind_eq_some.mp h with ⟨b₂, h₁, h₂⟩
    exact ih h₂ (set_cells_contiguous h₁ hb)

theorem applyOps_nonempty {ops : List SetCellsOp} :
    ∀ {b t : TextBuf}, applyOps b ops = some t →
      (∀ op ∈ ops, ∀ g ∈ op.cells, g.text ≠ "") → linesNonempty b → linesNonempty t := by
  induction ops with
  | nil => intro b t h _ hb; cases h; exact hb
  | cons op rest ih =>
    intro b t h hops hb
    rcases Option.bind_eq_some.mp h with ⟨b₂, h₁, h₂⟩
    exact ih h₂ (fun o ho => hops o (List.mem_cons_of_mem _ ho))
      (set_cells_nonempty h₁ (hops op (List.mem_cons_self _ _)) hb)

theorem up_down_eq {b : TextBuf} {n : Nat} (hn : n ≤ b.rows)
    (hlen : b.cells.length = b.rows) :
    (b.up n).bind (fun u => u.down n)
      = some { b with cells := List.replicate n (TextLine.new b.cols) ++ b.cells.drop n } := by
  have hup : b.up n
      = some { b with cells := b.cells.drop n ++ List.replicate n (TextLine.new b.cols) } := by
    unfold TextBuf.up
    rw [if_pos ⟨hn, hlen⟩]
  rw [hup, Option.some_bind]
  have hdl : (b.cells.drop n).length = b.rows - n := by
    rw [List.length_drop, hlen]
  unfold TextBuf.down
  rw [if_pos]
  · rw [List.take_left' hdl]
  · constructor
    · exact hn
    · rw [List.length_append, hdl, List.length_replicate, Nat.sub_add_cancel hn]

theorem blankCells_getElem {n s j : Nat} (h : j < n) :
    (blankCells s n)[j]? = some { TextCell.mkDefault with
      start_index := s + j, end_index := s + j + 1 } := by
  induction n generalizing s j with
  | zero => exact absurd h (Nat.not_lt_zero j)
  | succ n ih =>
    cases j with
    | zero => simp [blankCells]
    | succ j =>
      rw [show blankCells s (n + 1)
            = { TextCell.mkDefault with start_index := s, end_index := s + 1 }
              :: blankCells (s + 1) n from rfl,
        List.getElem?_cons_succ, ih (Nat.lt_of_succ_lt_succ h)]
      have : s + 1 + j = s + (j + 1) := by omega
      rw [this]

theorem blankCells_length (n s : Nat) : (blankCells s n).length = n := by
  induction n generalizing s with
  | zero => rfl
  | succ n ih =>
    rw [show blankCells s (n + 1)
          = { TextCell.mkDefault with start_index := s, end_index := s + 1 }
            :: blankCells (s + 1) n from rfl,
      List.length_cons, ih]

theorem resizeLine_nil (cols : Nat) : resizeLine cols [] = TextLine.new cols := by
  simp [resizeLine, TextLine.new, padStart]


/-! ## Claim theorems -/

/-- Claim C7: calling `resize(r, c)` and then `resize(r, c)` again with
identical arguments leaves the buffer exactly as after the first call —
the second call takes the early-return branch and changes no cell, no
dimension and no per-line cache flag. -/
theorem resize_idempotent (b : TextBuf) (rows cols : Nat) (t : TextBuf)
    (h : b.resize rows cols = some t) : t.resize rows cols = some t := by
  unfold TextBuf.resize at h ⊢
  split at h
  · rename_i hg
    cases h
    rw [if_pos hg]
  · dsimp only at h
    split at h
    · cases h
      rw [if_pos ⟨rfl, rfl⟩]
    · exact absurd h (by simp)

/-- Witness for C7 at the concrete buffer `mkTextBuf 1 1` resized to
`2 × 2`. -/
theorem resize_idempotent_witness :
    (mkTextBuf 1 1).resize 2 2 = some ⟨2, 2,
      [⟨[⟨" ", none, false, 0, 1⟩, ⟨" ", none, false, 0, 1⟩], false⟩,
       ⟨[⟨" ", none, false, 0, 1⟩, ⟨" ", none, false, 1, 2⟩], false⟩]⟩
    ∧ (TextBuf.resize ⟨2, 2,
      [⟨[⟨" ", none, false, 0, 1⟩, ⟨" ", none, false, 0, 1⟩], false⟩,
       ⟨[⟨" ", none, false, 0, 1⟩, ⟨" ", none, false, 1, 2⟩], false⟩]⟩ 2 2) = some ⟨2, 2,
      [⟨[⟨" ", none, false, 0, 1⟩, ⟨" ", none, false, 0, 1⟩], false⟩,
       ⟨[⟨" ", none, false, 0, 1⟩, ⟨" ", none, false, 1, 2⟩], false⟩]⟩ :=
  ⟨by decide, resize_idempotent (mkTextBuf 1 1) 2 2 _ (by decide)⟩

/-- Claim C8: `MessageShow` with `replace_last = true` pops the most
recent queue entry before appending when the queue is non-empty, and on an
empty queue behaves exactly like `replace_last = false`. -/
theorem messageShow_replace_last (msgs : List VimMessage) (kind : String)
    (content : List (String × Nat)) :
    (msgs ≠ [] → messageShow msgs kind content true
      = msgs.dropLast ++ [{ kind := kind, content := content }])
    ∧ messageShow [] kind content true = messageShow [] kind content false := by
  constructor
  · intro h
    simp [messageShow, h]
  · rfl

/-- Witness for C8 on the one-element queue. -/
theorem messageShow_replace_last_witness :
    ([({ kind := "echo", content := [("a", 1)] } : VimMessage)] ≠ [] →
      messageShow [{ kind := "echo", content := [("a", 1)] }] "echomsg" [] true
        = List.dropLast [{ kind := "echo", content := [("a", 1)] }]
          ++ [{ kind := "echomsg", content := [] }])
    ∧ messageShow [] "echomsg" [] true = messageShow [] "echomsg" [] false :=
  messageShow_replace_last [{ kind := "echo", content := [("a", 1)] }] "echomsg" []

/-- Claim C10: a `ModeChange` whose index is in range of the registered
cursor modes records the new mode and index, pushes the registered mode to
the cursor, and sends `ShowPointer` exactly when the new editor mode is
`Visual`. -/
theorem modeChange_show_pointer (st : ModeState) (mode : EditorMode) (idx : Nat)
    (h : idx < st.cursor_modes.length) :
    ((modeChange st mode idx).map Prod.snd = some true ↔ mode = EditorMode.Visual)
    ∧ (modeChange st mode idx).map (fun p => p.1.mode) = some mode
    ∧ (modeChange st mode idx).map (fun p => p.1.cursor_mode) = some idx
    ∧ (modeChange st mode idx).map (fun p => p.1.shownMode) = some st.cursor_modes[idx]? := by
  have hcm : st.cursor_modes[idx]? = some st.cursor_modes[idx] := List.getElem?_eq_getElem h
  refine ⟨?_, ?_, ?_, ?_⟩ <;> simp [modeChange, hcm]

/-- Witness for C10: `ModeChange` to `Visual` at index 0 of a one-mode
registry. -/
theorem modeChange_show_pointer_witness :
    (0 < (ModeState.cursor_modes ⟨.Normal, 0, [⟨1, none, 250, 150⟩], none⟩).length)
    ∧ (((modeChange ⟨.Normal, 0, [⟨1, none, 250, 150⟩], none⟩ .Visual 0).map Prod.snd
          = some true ↔ EditorMode.Visual = EditorMode.Visual)
        ∧ (modeChange ⟨.Normal, 0, [⟨1, none, 250, 150⟩], none⟩ .Visual 0).map
            (fun p => p.1.mode) = some .Visual
        ∧ (modeChange ⟨.Normal, 0, [⟨1, none, 250, 150⟩], none⟩ .Visual 0).map
            (fun p => p.1.cursor_mode) = some 0
        ∧ (modeChange ⟨.Normal, 0, [⟨1, none, 250, 150⟩], none⟩ .Visual 0).map
            (fun p => p.1.shownMode)
          = some (ModeState.cursor_modes ⟨.Normal, 0, [⟨1, none, 250, 150⟩], none⟩)[0]?) :=
  ⟨by decide, modeChange_show_pointer ⟨.Normal, 0, [⟨1, none, 250, 150⟩], none⟩ .Visual 0
    (by decide)⟩

/-- Claim C9: the public accessor `cell(row, col)` is total — on a buffer
whose cell vector matches its dimensions it returns `none` exactly when
`row` is at or beyond the row count or `col` at or beyond the line length,
and otherwise the stored cell's value (the source returns a `cloned()`
copy, never a reference into the buffer). -/
theorem cell_accessor_total (b : TextBuf) (hlen : b.cells.length = b.rows)
    (hcols : ∀ l ∈ b.cells, l.boxed.length = b.cols) (row col : Nat) :
    (b.cell row col = none ↔ b.rows ≤ row ∨ b.cols ≤ col)
    ∧ (∀ l, b.cells[row]? = some l → b.cell row col = l.boxed[col]?) := by
  constructor
  · unfold TextBuf.cell
    cases hrow : b.cells[row]? with
    | none =>
      rw [List.getElem?_eq_none_iff, hlen] at hrow
      simp [hrow]
    | some l =>
      have hr : row < b.rows := by
        rw [← hlen]
        exact (List.getElem?_eq_some_iff.mp hrow).1
      rw [Option.some_bind, List.getElem?_eq_none_iff, hcols l (List.getElem?_mem hrow)]
      omega
  · intro l hl
    unfold TextBuf.cell
    rw [hl, Option.some_bind]

/-- Witness for C9 on the concrete `2 × 3` blank buffer. -/
theorem cell_accessor_total_witness :
    ((mkTextBuf 2 3).cells.length = (mkTextBuf 2 3).rows
      ∧ ∀ l ∈ (mkTextBuf 2 3).cells, l.boxed.length = (mkTextBuf 2 3).cols)
    ∧ (((mkTextBuf 2 3).cell 5 0 = none ↔ (mkTextBuf 2 3).rows ≤ 5 ∨ (mkTextBuf 2 3).cols ≤ 0)
      ∧ (∀ l, (mkTextBuf 2 3).cells[5]? = some l
          → (mkTextBuf 2 3).cell 5 0 = l.boxed[0]?)) :=
  ⟨⟨by decide, by decide⟩,
    cell_accessor_total (mkTextBuf 2 3) (by decide) (by decide) 5 0⟩

/-- Claim C4, counterexample: a `Scroll` event with zero row delta and
column delta `1` on an existing `2 × 2` grid drives the reducer into
`unimplemented!("scroll left.")` — a panic, not an ignore-and-log
recovery that leaves the buffer unchanged. -/
theorem scroll_horizontal_cex :
    scrollReduce (mkTextBuf 2 2) 0 1 = ScrollOutcome.panic "scroll left."
    ∧ scrollReduce (mkTextBuf 2 2) 0 1 ≠ ScrollOutcome.ok (mkTextBuf 2 2) := by
  constructor
  · decide
  · decide

/-- Claim C4, amended: for every `Scroll` event with zero row delta and a
non-zero column delta, the reducer panics via `unimplemented!`
("scroll left." for positive, "scroll right." for negative column delta);
horizontal scroll is a hard failure, not an ignored event. -/
theorem scroll_horizontal_panics (b : TextBuf) (c : Int) :
    (0 < c → scrollReduce b 0 c = ScrollOutcome.panic "scroll left.")
    ∧ (c < 0 → scrollReduce b 0 c = ScrollOutcome.panic "scroll right.") := by
  constructor
  · intro h
    unfold scrollReduce
    rw [if_neg (by omega), if_neg (by omega), if_pos h]
  · intro h
    unfold scrollReduce
    rw [if_neg (by omega), if_neg (by omega), if_neg (by omega), if_pos h]

/-- Witness for C4 (amended) at column delta `1` on the `2 × 2` buffer. -/
theorem scroll_horizontal_panics_witness :
    ((0 : Int) < 1 → scrollReduce (mkTextBuf 2 2) 0 1 = ScrollOutcome.panic "scroll left.")
    ∧ ((1 : Int) < 0 → scrollReduce (mkTextBuf 2 2) 0 1
        = ScrollOutcome.panic "scroll right.") :=
  scroll_horizontal_panics (mkTextBuf 2 2) 1

/-- Claim C5, counterexample: `CursorGoto` to `(row 5, col 7)` of a grid
backed by a `1 × 1` buffer finds no backing cell; the handler leaves the
cursor coordinate untouched (here still `(0, 0)`), so the claim that the
coordinate is updated fails. -/
theorem cursorGoto_missing_cell_cex :
    (cursorGoto ⟨0, 0, 0, none, 0, 0, false⟩ 3 0 0 (mkTextBuf 1 1) 5 7).coordCol ≠ 7
    ∧ (cursorGoto ⟨0, 0, 0, none, 0, 0, false⟩ 3 0 0 (mkTextBuf 1 1) 5 7).coordRow ≠ 5
    ∧ (mkTextBuf 1 1).cell 5 7 = none := by
  refine ⟨?_, ?_, ?_⟩ <;> decide

/-- Claim C5, amended: when the target coordinate has no backing cell,
`CursorGoto` still records the active grid and raises the moved flag, but
leaves the grid-local coordinate, the cell snapshot and the surface
coordinate unchanged (and logs a warning). -/
theorem cursorGoto_missing_cell (st : CursorState) (grid : Nat) (lc lr : Rat)
    (buf : TextBuf) (row col : Nat) (h : buf.cell row col = none) :
    cursorGoto st grid lc lr buf row col
      = { st with grid := grid, coordChanged := true } := by
  unfold cursorGoto
  rw [h]

/-- Witness for C5 (amended) at the concrete missing coordinate. -/
theorem cursorGoto_missing_cell_witness :
    (mkTextBuf 1 1).cell 5 7 = none
    ∧ cursorGoto ⟨0, 0, 0, none, 0, 0, false⟩ 3 0 0 (mkTextBuf 1 1) 5 7
      = { (⟨0, 0, 0, none, 0, 0, false⟩ : CursorState) with
          grid := 3, coordChanged := true } :=
  ⟨by decide, cursorGoto_missing_cell ⟨0, 0, 0, none, 0, 0, false⟩ 3 0 0
    (mkTextBuf 1 1) 5 7 (by decide)⟩

theorem clamp_self (c : Rat) : fmax (fmax c 0) 0 = max 0 c := by
  rw [fmax_eq_max, fmax_eq_max, max_eq_left (le_max_right c 0), max_comm]

theorem clamp_sub (c w : Rat) (hw : 0 ≤ w) : fmax (fmax c 0 - w) 0 = max 0 (c - w) := by
  rw [fmax_eq_max, fmax_eq_max]
  rcases le_total 0 c with h | h
  · rw [max_eq_left h, max_comm]
  · rw [max_eq_right h, max_eq_right (by linarith : (0 : Rat) - w ≤ 0),
      max_eq_left (by linarith : c - w ≤ 0)]

/-- Claim C2, counterexample: with the anchor grid at origin `(10, 5)`,
anchor offset `(3, 2)`, anchor corner `SouthEast` and a `4 × 2` floating
grid, the handler places the float at `(10, 5)` — the negative computed
column offset `3 - 4 = -1` is clamped to `0` — not at the claimed
`(9, 5)`. -/
theorem windowFloatPosition_placement_cex :
    (windowFloatPosition 10 5 ⟨0, 0, 4, 2, false, false⟩ .SouthEast 3 2 true).coordCol ≠ 9
    ∧ (windowFloatPosition 10 5 ⟨0, 0, 4, 2, false, false⟩ .SouthEast 3 2 true).coordCol = 10
    ∧ (windowFloatPosition 10 5 ⟨0, 0, 4, 2, false, false⟩ .SouthEast 3 2 true).coordRow
      = 5 := by
  refine ⟨?_, ?_, ?_⟩ <;> norm_num [windowFloatPosition, fmax]

/-- Claim C2, amended: the final placement is the anchor grid's origin plus
`max(0, computed_offset)` on each axis, the computed offset subtracting the
float's width/height for the anchor corners whose indicated corner is not
top-left; in particular the `(10,5)`-`(3,2)`-`SouthEast`-`(4,2)` example
lands at `(10, 5)` (the column offset clamps to zero), not `(9, 5)`. -/
theorem windowFloatPosition_placement (acol arow : Rat) (g : VimGrid)
    (anchor : WindowAnchor) (c r : Rat) (f : Bool) :
    ((windowFloatPosition acol arow g anchor c r f).coordCol
        = acol + max 0 (match anchor with
            | .NorthWest => c
            | .NorthEast => c - (g.width : Rat)
            | .SouthWest => c
            | .SouthEast => c - (g.width : Rat))
      ∧ (windowFloatPosition acol arow g anchor c r f).coordRow
        = arow + max 0 (match anchor with
            | .NorthWest => r
            | .NorthEast => r
            | .SouthWest => r - (g.height : Rat)
            | .SouthEast => r - (g.height : Rat)))
    ∧ (windowFloatPosition 10 5 ⟨0, 0, 4, 2, false, false⟩ .SouthEast 3 2 true).coordCol = 10
    ∧ (windowFloatPosition 10 5 ⟨0, 0, 4, 2, false, false⟩ .SouthEast 3 2 true).coordRow
      = 5 := by
  refine ⟨?_, by norm_num [windowFloatPosition, fmax], by norm_num [windowFloatPosition, fmax]⟩
  cases anchor with
  | NorthWest =>
    exact ⟨by simp [windowFloatPosition, clamp_self],
      by simp [windowFloatPosition, clamp_self]⟩
  | NorthEast =>
    exact ⟨by simp [windowFloatPosition, clamp_sub c _ (Nat.cast_nonneg g.width)],
      by simp [windowFloatPosition, clamp_self]⟩
  | SouthWest =>
    exact ⟨by simp [windowFloatPosition, clamp_self],
      by simp [windowFloatPosition, clamp_sub r _ (Nat.cast_nonneg g.height)]⟩
  | SouthEast =>
    exact ⟨by simp [windowFloatPosition, clamp_sub c _ (Nat.cast_nonneg g.width)],
      by simp [windowFloatPosition, clamp_sub r _ (Nat.cast_nonneg g.height)]⟩

/-- Claim C6, counterexample: a populated `2 × 1` buffer whose only
non-blank content sits in row 1 (below the shifted region) **is** restored
by `up(1)` then `down(1)`, refuting the unqualified "on a populated buffer
the composition does not restore the original content". -/
theorem up_down_cex :
    ((mkTextBuf 2 1).set_cells 1 0 [⟨"x", none, none, false⟩]).bind
        (fun b => (b.up 1).bind (fun u => u.down 1))
      = (mkTextBuf 2 1).set_cells 1 0 [⟨"x", none, none, false⟩]
    ∧ (mkTextBuf 2 1).set_cells 1 0 [⟨"x", none, none, false⟩] ≠ some (mkTextBuf 2 1) := by
  constructor <;> decide

/-- Claim C6, amended: `up(n)` then `down(n)` blanks the first `n` rows and
restores every row from `n` on (rows are discarded, not rotated).  Hence a
blank buffer stays blank, and a populated buffer is not restored exactly
when its first `n` rows hold non-blank content; content below the shifted
region survives the round trip. -/
theorem up_down_discards_top (n : Nat) (b : TextBuf)
    (hlen : b.cells.length = b.rows) (hn : n ≤ b.rows) :
    (b.up n).bind (fun u => u.down n)
      = some { b with cells := List.replicate n (TextLine.new b.cols) ++ b.cells.drop n }
    ∧ ((mkTextBuf b.rows b.cols).up n).bind (fun u => u.down n)
      = some (mkTextBuf b.rows b.cols)
    ∧ (b.cells.take n ≠ List.replicate n (TextLine.new b.cols) →
        (b.up n).bind (fun u => u.down n) ≠ some b) := by
  have h1 := up_down_eq (b := b) hn hlen
  refine ⟨h1, ?_, ?_⟩
  · have h2 := up_down_eq (b := mkTextBuf b.rows b.cols) (n := n) hn (by simp [mkTextBuf, TextBuf.make])
    rw [h2]
    unfold mkTextBuf TextBuf.make
    rw [List.drop_replicate, ← List.replicate_add]
    rw [Nat.add_sub_cancel' hn]
  · intro hne hcomp
    rw [h1] at hcomp
    have hcells := congrArg TextBuf.cells (Option.some.inj hcomp)
    apply hne
    conv_lhs => rw [← hcells]
    exact List.take_left' (by simp)

/-- Witness for C6 (amended) on a `2 × 1` buffer whose first row is
non-blank. -/
theorem up_down_discards_top_witness :
    ((⟨2, 1, [⟨[⟨"x", none, false, 0, 1⟩], false⟩, ⟨[⟨" ", none, false, 0, 1⟩], false⟩]⟩ :
        TextBuf).cells.length
      = (⟨2, 1, [⟨[⟨"x", none, false, 0, 1⟩], false⟩, ⟨[⟨" ", none, false, 0, 1⟩], false⟩]⟩ :
        TextBuf).rows
      ∧ 1 ≤ (⟨2, 1, [⟨[⟨"x", none, false, 0, 1⟩], false⟩,
          ⟨[⟨" ", none, false, 0, 1⟩], false⟩]⟩ : TextBuf).rows)
    ∧ (((⟨2, 1, [⟨[⟨"x", none, false, 0, 1⟩], false⟩, ⟨[⟨" ", none, false, 0, 1⟩], false⟩]⟩ :
          TextBuf).up 1).bind (fun u => u.down 1)
        = some { (⟨2, 1, [⟨[⟨"x", none, false, 0, 1⟩], false⟩,
              ⟨[⟨" ", none, false, 0, 1⟩], false⟩]⟩ : TextBuf) with
            cells := List.replicate 1 (TextLine.new 1)
              ++ List.drop 1 [⟨[⟨"x", none, false, 0, 1⟩], false⟩,
                  ⟨[⟨" ", none, false, 0, 1⟩], false⟩] }
      ∧ ((mkTextBuf 2 1).up 1).bind (fun u => u.down 1) = some (mkTextBuf 2 1)
      ∧ (List.take 1 [(⟨[⟨"x", none, false, 0, 1⟩], false⟩ : TextLine),
            ⟨[⟨" ", none, false, 0, 1⟩], false⟩]
            ≠ List.replicate 1 (TextLine.new 1) →
          ((⟨2, 1, [⟨[⟨"x", none, false, 0, 1⟩], false⟩,
              ⟨[⟨" ", none, false, 0, 1⟩], false⟩]⟩ : TextBuf).up 1).bind (fun u => u.down 1)
            ≠ some ⟨2, 1, [⟨[⟨"x", none, false, 0, 1⟩], false⟩,
                ⟨[⟨" ", none, false, 0, 1⟩], false⟩]⟩)) :=
  ⟨⟨by decide, by decide⟩,
    up_down_discards_top 1
      ⟨2, 1, [⟨[⟨"x", none, false, 0, 1⟩], false⟩, ⟨[⟨" ", none, false, 0, 1⟩], false⟩]⟩
      (by decide) (by decide)⟩

/-- Claim C3, counterexample: resizing the blank `1 × 1` buffer to
`1 × 2` pads the kept row with a cell whose `start_index` (0) repeats the
last kept cell's `start_index` instead of continuing from its `end_index`
(1): the padded offsets are not contiguous with the kept cell. -/
theorem resize_semantics_cex :
    (((mkTextBuf 1 1).resize 1 2).bind fun t =>
        (t.cells[0]?).bind fun l => (l.boxed[1]?).map TextCell.start_index)
      ≠ (((mkTextBuf 1 1).resize 1 2).bind fun t =>
        (t.cells[0]?).bind fun l => (l.boxed[0]?).map TextCell.end_index) := by
  decide

/-- Claim C3, amended: `resize(rows, cols)` is a no-op when the dimensions
are unchanged; otherwise it preserves the top-left `min(old,new)`
rectangle, pads new rows with blank lines, and pads new columns in kept
rows with width-one cells whose offsets are consecutive but start at the
last kept cell's `start_index` (one byte short of contiguous continuation
from its `end_index`). -/
theorem resize_semantics (b : TextBuf) (rows cols : Nat)
    (hlen : b.cells.length = b.rows) (hcols : ∀ l ∈ b.cells, l.boxed.length = b.cols) :
    (b.rows = rows → b.cols = cols → b.resize rows cols = some b)
    ∧ ∀ t, b.resize rows cols = some t →
        (t.rows = rows ∧ t.cols = cols ∧ t.cells.length = rows)
        ∧ (∀ r c, r < min rows b.rows → c < min cols b.cols → t.cell r c = b.cell r c)
        ∧ (∀ r, min rows b.rows ≤ r → r < rows → t.cells[r]? = some (TextLine.new cols))
        ∧ (∀ r l, r < min rows b.rows → b.cells[r]? = some l → b.cols < cols →
            ∀ j, j < cols - b.cols →
              t.cell r (b.cols + j) = some { TextCell.mkDefault with
                start_index := padStart l.boxed + j
                end_index := padStart l.boxed + j + 1 }) := by
  constructor
  · intro h1 h2
    unfold TextBuf.resize
    rw [if_pos ⟨h1, h2⟩]
  · intro t ht
    unfold TextBuf.resize at ht
    by_cases hg : b.rows = rows ∧ b.cols = cols
    · rw [if_pos hg] at ht
      cases Option.some.inj ht
      refine ⟨⟨hg.1, hg.2, by rw [hlen, hg.1]⟩, fun r c _ _ => rfl, ?_, ?_⟩
      · intro r hr1 hr2
        rw [← hg.1, Nat.min_self] at hr1
        rw [← hg.1] at hr2
        omega
      · intro r l _ _ hlt
        rw [hg.2] at hlt
        omega
    · rw [if_neg hg] at ht
      dsimp only at ht
      split at ht
      · rename_i hle
        cases Option.some.inj ht
        have hmin : min rows b.rows ≤ rows := Nat.min_le_left _ _
        have htakelen : ((b.cells.take (min rows b.rows)).map
            (fun l => resizeLine cols l.boxed)).length = min rows b.rows := by
          rw [List.length_map, List.length_take, Nat.min_eq_left hle]
        refine ⟨⟨rfl, rfl, ?_⟩, ?_, ?_, ?_⟩
        · rw [List.length_append, htakelen, List.length_replicate]
          omega
        · intro r c hr hc
          have hrl : r < b.cells.length := by rw [hlen]; omega
          obtain ⟨l, hl⟩ : ∃ l, b.cells[r]? = some l :=
            ⟨b.cells[r], List.getElem?_eq_getElem hrl⟩
          have hlb : l.boxed.length = b.cols := hcols l (List.getElem?_mem hl)
          unfold TextBuf.cell
          rw [List.getElem?_append_left (by rw [htakelen]; exact hr), List.getElem?_map,
            List.getElem?_take_of_lt hr, hl, Option.map_some', Option.some_bind,
            Option.some_bind]
          unfold resizeLine
          rw [List.getElem?_append_left (by rw [List.length_take, hlb]; exact hc),
            List.getElem?_take_of_lt (by omega : c < cols)]
        · intro r hr1 hr2
          rw [List.getElem?_append_right (by rw [htakelen]; exact hr1), htakelen,
            List.getElem?_replicate_of_lt (by omega), resizeLine_nil]
        · intro r l hr hl hbc j hj
          have hlb : l.boxed.length = b.cols := hcols l (List.getElem?_mem hl)
          unfold TextBuf.cell
          rw [List.getElem?_append_left (by rw [htakelen]; exact hr), List.getElem?_map,
            List.getElem?_take_of_lt hr, hl, Option.map_some', Option.some_bind]
          unfold resizeLine
          rw [List.take_of_length_le (by omega : l.boxed.length ≤ cols),
            List.getElem?_append_right (by omega : l.boxed.length ≤ b.cols + j), hlb,
            (by omega : b.cols + j - b.cols = j), blankCells_getElem hj]
      · exact absurd ht (by simp)

/-- Witness for C3 (amended): the blank `1 × 1` buffer resized to `2 × 2`. -/
theorem resize_semantics_witness :
    ((mkTextBuf 1 1).cells.length = (mkTextBuf 1 1).rows
      ∧ ∀ l ∈ (mkTextBuf 1 1).cells, l.boxed.length = (mkTextBuf 1 1).cols)
    ∧ (((mkTextBuf 1 1).rows = 2 → (mkTextBuf 1 1).cols = 2 →
          (mkTextBuf 1 1).resize 2 2 = some (mkTextBuf 1 1))
      ∧ ∀ t, (mkTextBuf 1 1).resize 2 2 = some t →
          (t.rows = 2 ∧ t.cols = 2 ∧ t.cells.length = 2)
          ∧ (∀ r c, r < min 2 (mkTextBuf 1 1).rows → c < min 2 (mkTextBuf 1 1).cols →
              t.cell r c = (mkTextBuf 1 1).cell r c)
          ∧ (∀ r, min 2 (mkTextBuf 1 1).rows ≤ r → r < 2 →
              t.cells[r]? = some (TextLine.new 2))
          ∧ (∀ r l, r < min 2 (mkTextBuf 1 1).rows → (mkTextBuf 1 1).cells[r]? = some l →
              (mkTextBuf 1 1).cols < 2 → ∀ j, j < 2 - (mkTextBuf 1 1).cols →
                t.cell r ((mkTextBuf 1 1).cols + j) = some { TextCell.mkDefault with
                  start_index := padStart l.boxed + j
                  end_index := padStart l.boxed + j + 1 })) :=
  ⟨⟨by decide, by decide⟩, resize_semantics (mkTextBuf 1 1) 2 2 (by decide) (by decide)⟩

/-- Claim C1, counterexample: one in-bounds, in-line `set_cells` call whose
single run carries an empty text leaves a cell with
`start_index = end_index` (both 0), so the resulting line's offsets are
not strictly increasing. -/
theorem set_cells_line_offsets_cex :
    ((mkTextBuf 1 1).set_cells 0 0 [⟨"", none, none, false⟩]).bind
        (fun t => (t.cells[0]?).bind fun l => (l.boxed[0]?).map
          (fun c => decide (c.start_index < c.end_index)))
      = some false := by decide

/-- Claim C1, amended: after any sequence of in-bounds, in-line
`set_cells` calls on row `r` of a fresh buffer, the row's cell offsets are
contiguous (`cells[i].end_index = cells[i+1].start_index`); they are
additionally strictly increasing (`start_index < end_index` for every
cell) provided every run text in the sequence is non-empty — a run with
empty text yields an empty-width cell. -/
theorem set_cells_line_offsets (rows cols r : Nat) (ops : List SetCellsOp)
    (_hrow : ∀ op ∈ ops, op.row = r) (t : TextBuf)
    (happ : applyOps (mkTextBuf rows cols) ops = some t)
    (l : TextLine) (hl : t.cells[r]? = some l) :
    (∀ (i : Nat) (c₁ c₂ : TextCell), l.boxed[i]? = some c₁ → l.boxed[i + 1]? = some c₂ →
      c₁.end_index = c₂.start_index)
    ∧ ((∀ op ∈ ops, ∀ g ∈ op.cells, g.text ≠ "") →
        ∀ (i : Nat) (c : TextCell), l.boxed[i]? = some c →
          c.start_index < c.end_index) := by
  have hmem : l ∈ t.cells := List.getElem?_mem hl
  have hcont : contiguousFrom 0 l.boxed :=
    applyOps_contiguous happ (mkTextBuf_contiguous rows cols) l hmem
  constructor
  · intro i c₁ c₂ h1 h2
    exact contiguousFrom_adjacent hcont h1 h2
  · intro hne i c hc
    have hnonempty := applyOps_nonempty happ hne (mkTextBuf_nonempty rows cols) l hmem
    exact contiguousFrom_strict hcont hnonempty c (List.getElem?_mem hc)

/-- Witness for C1 (amended): one `set_cells` call writing the run "ab"
at the start of the single row of a `1 × 3` buffer. -/
theorem set_cells_line_offsets_witness :
    ((∀ op ∈ [(⟨0, 0, [⟨"ab", none, some 1, false⟩]⟩ : SetCellsOp)], op.row = 0)
      ∧ applyOps (mkTextBuf 1 3) [⟨0, 0, [⟨"ab", none, some 1, false⟩]⟩]
        = some ⟨1, 3, [⟨[⟨"ab", none, false, 0, 2⟩, ⟨" ", none, false, 2, 3⟩,
            ⟨" ", none, false, 3, 4⟩], false⟩]⟩
      ∧ (⟨1, 3, [⟨[⟨"ab", none, false, 0, 2⟩, ⟨" ", none, false, 2, 3⟩,
            ⟨" ", none, false, 3, 4⟩], false⟩]⟩ : TextBuf).cells[0]?
        = some ⟨[⟨"ab", none, false, 0, 2⟩, ⟨" ", none, false, 2, 3⟩,
            ⟨" ", none, false, 3, 4⟩], false⟩)
    ∧ ((∀ (i : Nat) (c₁ c₂ : TextCell),
          (⟨[⟨"ab", none, false, 0, 2⟩, ⟨" ", none, false, 2, 3⟩,
              ⟨" ", none, false, 3, 4⟩], false⟩ : TextLine).boxed[i]? = some c₁ →
          (⟨[⟨"ab", none, false, 0, 2⟩, ⟨" ", none, false, 2, 3⟩,
              ⟨" ", none, false, 3, 4⟩], false⟩ : TextLine).boxed[i + 1]? = some c₂ →
          c₁.end_index = c₂.start_index)
      ∧ ((∀ op ∈ [(⟨0, 0, [⟨"ab", none, some 1, false⟩]⟩ : SetCellsOp)],
            ∀ g ∈ op.cells, g.text ≠ "") →
          ∀ (i : Nat) (c : TextCell),
            (⟨[⟨"ab", none, false, 0, 2⟩, ⟨" ", none, false, 2, 3⟩,
              ⟨" ", none, false, 3, 4⟩], false⟩ : TextLine).boxed[i]? = some c →
            c.start_index < c.end_index)) :=
  ⟨⟨by decide, by decide, by decide⟩,
    set_cells_line_offsets 1 3 0 [⟨0, 0, [⟨"ab", none, some 1, false⟩]⟩]
      (by decide)
      ⟨1, 3, [⟨[⟨"ab", none, false, 0, 2⟩, ⟨" ", none, false, 2, 3⟩,
          ⟨" ", none, false, 3, 4⟩], false⟩]⟩
      (by decide)
      ⟨[⟨"ab", none, false, 0, 2⟩, ⟨" ", none, false, 2, 3⟩,
          ⟨" ", none, false, 3, 4⟩], false⟩
      (by decide)⟩

end Relmvim
